import Mathlib

/-!
Verification of the expense-tracker backend.

Shallow embedding of the Express/Mongoose backend in `src/backend/server.js`,
together with the variant route in `src/unnamed/part_000` where the two files
differ (the PUT /auth/update/:tid handler of the variant validates required
fields; the one in server.js does not).  The database is a list of user
records holding a nested list of transaction subdocuments, mirroring the
Mongoose User model with its `transactions` array.  `User.findOne` /
`User.findById` become `List.find?`, and the findOne-mutate-save cycle
becomes replacement of the first matching record.  JWTs are abstracted to a
payload id plus the signing secret and an issue time; expiry is not
modelled, and `jwtVerify` checks the signing secret only.
-/

/-- A signed JWT, abstracted: the embedded payload id, the signing secret,
and the issue time (`iat`), which makes tokens signed at different times
distinct values, as real JWTs are. -/
structure Token where
  id : Nat
  secret : String
  iat : Nat
deriving DecidableEq, Repr

/-- ACCESS_TOKEN_SECRET from the environment, an arbitrary fixed value. -/
def ACCESS_TOKEN_SECRET : String := "access-token-secret"

/-- REFRESH_TOKEN_SECRET from the environment, distinct from the access
secret. -/
def REFRESH_TOKEN_SECRET : String := "refresh-token-secret"

/-- Model of jwt.sign on payload `\x7bid\x7d` with a secret, at time `now`. -/
def jwtSign (id : Nat) (secret : String) (now : Nat) : Token :=
  { id := id, secret := secret, iat := now }

/-- Model of jwt.verify(token, secret, cb): `some` of the decoded payload id
on success, `none` when signature verification fails. -/
def jwtVerify (t : Token) (secret : String) : Option Nat :=
  if t.secret = secret then some t.id else none

/-- Model of bcrypt.hash as a deterministic digest (the salt is abstracted
away; no claim depends on it). -/
def hashPwd (p : String) : String := "bcrypt$" ++ p

/-- JS truthiness of an optional string field of `req.body`: a missing field
(undefined) and the empty string are falsy; every other string is truthy. -/
def truthyS : Option String → Bool
  | none => false
  | some s => decide (s ≠ "")

/-- A transaction subdocument.  Field values come straight from `req.body`,
so each may be absent (undefined): the create route of server.js stores them
unvalidated.  `tid` is the store-generated subdocument id. -/
structure Transaction where
  tid : Nat
  type : Option String
  category : Option String
  amount : Option Int
  description : Option String
  date : Option String
deriving DecidableEq, Repr

/-- The transaction fields destructured from `req.body` by the create and
update routes. -/
structure TxBody where
  type : Option String
  category : Option String
  amount : Option Int
  description : Option String
  date : Option String
deriving DecidableEq, Repr

/-- A persisted User document: username, bcrypt password hash, the single
nullable refresh token, and the owned transaction array. -/
structure UserRec where
  uid : Nat
  username : String
  password : String
  refreshToken : Option Token
  transactions : List Transaction
deriving DecidableEq, Repr

/-- The database: the collection of User documents. -/
abbrev DB := List UserRec

/-- The observable part of an HTTP response: status code, any access token
in the JSON body, any transaction list in the body, any Set-Cookie of the
jwt cookie, and whether the jwt cookie was cleared. -/
structure Resp where
  status : Nat
  accessToken : Option Token := none
  txns : Option (List Transaction) := none
  setCookie : Option Token := none
  clearedCookie : Bool := false
deriving DecidableEq, Repr

/-- Replace the first element satisfying `p` by its image under `f`; models
the Mongoose findOne-mutate-save cycle on a document, and in-place mutation
of the subdocument found by `transactions.id(tid)`. -/
def updateFirst {α : Type} (p : α → Bool) (f : α → α) : List α → List α
  | [] => []
  | x :: xs => if p x then f x :: xs else x :: updateFirst p f xs

/-- Remove the first element satisfying `p`; models `subdoc.deleteOne()` on
the subdocument found by `transactions.id(tid)`. -/
def removeFirst {α : Type} (p : α → Bool) : List α → List α
  | [] => []
  | x :: xs => if p x then xs else x :: removeFirst p xs

/-- POST /register (server.js lines 51-97).  `newId` is the store-generated
id of the created document, `now` the signing time. -/
def registerHandler (db : DB) (user pwd : Option String) (newId now : Nat) :
    DB × Resp :=
  if !truthyS user || !truthyS pwd then (db, { status := 400 })
  else
    match db.find? (fun u => decide (u.username = user.getD "")) with
    | some _ => (db, { status := 409 })
    | none =>
      let accessToken := jwtSign newId ACCESS_TOKEN_SECRET now
      let refreshTok := jwtSign newId REFRESH_TOKEN_SECRET now
      let newUser : UserRec :=
        { uid := newId, username := user.getD "",
          password := hashPwd (pwd.getD ""),
          refreshToken := some refreshTok, transactions := [] }
      (db ++ [newUser],
       { status := 201, accessToken := some accessToken,
         setCookie := some refreshTok })

/-- POST /login (server.js lines 100-136).  bcrypt.compare(pwd, stored) is
modelled as equality of `hashPwd pwd` with the stored digest. -/
def loginHandler (db : DB) (user pwd : Option String) (now : Nat) :
    DB × Resp :=
  if !truthyS user || !truthyS pwd then (db, { status := 400 })
  else
    match db.find? (fun u => decide (u.username = user.getD "")) with
    | none => (db, { status := 401 })
    | some foundUser =>
      if hashPwd (pwd.getD "") = foundUser.password then
        let accessToken := jwtSign foundUser.uid ACCESS_TOKEN_SECRET now
        let refreshTok := jwtSign foundUser.uid REFRESH_TOKEN_SECRET now
        (updateFirst (fun u => decide (u.username = user.getD ""))
           (fun u => { u with refreshToken := some refreshTok }) db,
         { status := 200, accessToken := some accessToken,
           setCookie := some refreshTok })
      else (db, { status := 401 })

/-- POST /refresh (server.js lines 139-163; identically part_000 lines
128-165): 401 without a jwt cookie, then findOne by the raw token value,
then signature verification and id match, each failure a 403; on success a
fresh access token only.  The database is returned unchanged on every path,
as the handler contains no save. -/
def refreshHandler (db : DB) (cookie : Option Token) (now : Nat) :
    DB × Resp :=
  match cookie with
  | none => (db, { status := 401 })
  | some refreshTok =>
    match db.find? (fun u => decide (u.refreshToken = some refreshTok)) with
    | none => (db, { status := 403 })
    | some foundUser =>
      match jwtVerify refreshTok REFRESH_TOKEN_SECRET with
      | none => (db, { status := 403 })
      | some decodedId =>
        if foundUser.uid ≠ decodedId then (db, { status := 403 })
        else
          (db, { status := 200,
                 accessToken :=
                   some (jwtSign foundUser.uid ACCESS_TOKEN_SECRET now) })

/-- POST /logout (server.js lines 166-183): no cookie is an immediate 204
with nothing cleared; otherwise the first user holding the cookie value, if
any, has its refresh token set to null, and the cookie is cleared. -/
def logoutHandler (db : DB) (cookie : Option Token) : DB × Resp :=
  match cookie with
  | none => (db, { status := 204 })
  | some refreshTok =>
    (updateFirst (fun u => decide (u.refreshToken = some refreshTok))
       (fun u => { u with refreshToken := none }) db,
     { status := 204, clearedCookie := true })

/-- POST /auth/create (server.js lines 190-210): `uid` is the authenticated
id attached by the verifyJWT guard; the body fields are stored without
validation; `newTid` is the store-generated subdocument id. -/
def createTxn (db : DB) (uid : Nat) (b : TxBody) (newTid : Nat) :
    DB × Resp :=
  match db.find? (fun u => decide (u.uid = uid)) with
  | none => (db, { status := 404 })
  | some _ =>
    (updateFirst (fun u => decide (u.uid = uid))
       (fun u => { u with transactions := u.transactions ++
          [{ tid := newTid, type := b.type, category := b.category,
             amount := b.amount, description := b.description,
             date := b.date }] }) db,
     { status := 201 })

/-- GET /auth/transactions (server.js lines 213-222): the owner's full
transaction array, unfiltered. -/
def listTxns (db : DB) (uid : Nat) : Resp :=
  match db.find? (fun u => decide (u.uid = uid)) with
  | none => { status := 404 }
  | some u => { status := 200, txns := some u.transactions }

/-- PUT /auth/update/:tid as written in server.js lines 225-246: no body
validation; 404 when the user or the transaction id within that user's
array is absent; otherwise type, category, amount and description are
overwritten with the body values and date only when the body date is
truthy. -/
def updateTxn (db : DB) (uid tid : Nat) (b : TxBody) : DB × Resp :=
  match db.find? (fun u => decide (u.uid = uid)) with
  | none => (db, { status := 404 })
  | some u =>
    match u.transactions.find? (fun tx => decide (tx.tid = tid)) with
    | none => (db, { status := 404 })
    | some tx =>
      let tx' : Transaction :=
        { tid := tx.tid, type := b.type, category := b.category,
          amount := b.amount, description := b.description,
          date := if truthyS b.date then b.date else tx.date }
      let repl : UserRec → UserRec := fun v =>
        { v with transactions :=
            updateFirst (fun t => decide (t.tid = tid)) (fun _ => tx') v.transactions }
      (updateFirst (fun v => decide (v.uid = uid)) repl db, { status := 200 })

/-- PUT /auth/update/:tid as written in the variant src/unnamed/part_000
lines 240-267: identical to `updateTxn` except that a falsy type, falsy
category, or `amount == null` is rejected with 400 before any lookup. -/
def updateTxnChecked (db : DB) (uid tid : Nat) (b : TxBody) : DB × Resp :=
  if !truthyS b.type || !truthyS b.category || decide (b.amount = none) then
    (db, { status := 400 })
  else updateTxn db uid tid b

/-- DELETE /auth/delete/:tid (server.js lines 249-264): 404 under the same
scoping as update; otherwise the subdocument is removed. -/
def deleteTxn (db : DB) (uid tid : Nat) : DB × Resp :=
  match db.find? (fun u => decide (u.uid = uid)) with
  | none => (db, { status := 404 })
  | some u =>
    match u.transactions.find? (fun tx => decide (tx.tid = tid)) with
    | none => (db, { status := 404 })
    | some _ =>
      let repl : UserRec → UserRec := fun v =>
        { v with transactions :=
            removeFirst (fun t => decide (t.tid = tid)) v.transactions }
      (updateFirst (fun v => decide (v.uid = uid)) repl db, { status := 200 })

/-- Sample refresh token stored for the first sample user. -/
def tokA : Token := jwtSign 1 REFRESH_TOKEN_SECRET 10

/-- Sample transaction owned by the first sample user. -/
def txA1 : Transaction :=
  { tid := 101, type := some "expense", category := some "Food",
    amount := some 12, description := some "lunch",
    date := some "2024-03-01" }

/-- Sample transaction owned by the second sample user. -/
def txB1 : Transaction :=
  { tid := 201, type := some "income", category := some "Salary",
    amount := some 900, description := none, date := some "2024-02-15" }

/-- First sample user, holding a live refresh token. -/
def userA : UserRec :=
  { uid := 1, username := "alice", password := hashPwd "pa",
    refreshToken := some tokA, transactions := [txA1] }

/-- Second sample user, logged out. -/
def userB : UserRec :=
  { uid := 2, username := "bob", password := hashPwd "pb",
    refreshToken := none, transactions := [txB1] }

/-- Sample two-user state used by the witness theorems. -/
def dbAB : DB := [userA, userB]

/-- A token whose signature does not verify against the refresh secret. -/
def badTok : Token := { id := 1, secret := "wrong", iat := 0 }

/-- The first sample user with the unverifiable token stored. -/
def userABad : UserRec := { userA with refreshToken := some badTok }

/-- Transaction subdocument ids never repeat across users with distinct
ids, as store-generated ObjectIds do not: the owner-scoping invariant of
the data model. -/
abbrev crossUserTidsDisjoint (db : DB) : Prop :=
  ∀ u ∈ db, ∀ v ∈ db, u.uid ≠ v.uid →
    ∀ x ∈ u.transactions, ∀ y ∈ v.transactions, x.tid ≠ y.tid

/-- A sample update body with every field present except date. -/
def sampleBody : TxBody :=
  { type := some "income", category := some "Gift", amount := some 30,
    description := some "", date := none }

/-- The subdocument produced by the update route: type, category, amount
and description replaced by the body values, date replaced only when the
body date is truthy. -/
def replacedTx (tx : Transaction) (b : TxBody) : Transaction :=
  { tid := tx.tid, type := b.type, category := b.category,
    amount := b.amount, description := b.description,
    date := if truthyS b.date then b.date else tx.date }

/-- The subdocument appended by the create route from the body fields. -/
def newTxOf (b : TxBody) (newTid : Nat) : Transaction :=
  { tid := newTid, type := b.type, category := b.category,
    amount := b.amount, description := b.description, date := b.date }

/-- The owner after the create route appended the new subdocument. -/
def withNewTx (A : UserRec) (b : TxBody) (newTid : Nat) : UserRec :=
  { A with transactions := A.transactions ++ [newTxOf b newTid] }

/-- An update body whose required fields type, category and amount (and all
others) are absent. -/
def emptyBody : TxBody :=
  { type := none, category := none, amount := none, description := none,
    date := none }

theorem updateFirst_of_find?_none {α : Type} {p : α → Bool} (f : α → α) :
    ∀ {xs : List α}, xs.find? p = none → updateFirst p f xs = xs
  | [], _ => rfl
  | x :: xs, h => by
    rw [List.find?_eq_none] at h
    have hx : ¬ p x = true := h x (List.mem_cons_self x xs)
    have hxs : xs.find? p = none := by
      rw [List.find?_eq_none]
      exact fun y hy => h y (List.mem_cons_of_mem x hy)
    simp only [updateFirst, if_neg hx, updateFirst_of_find?_none f hxs]

theorem find?_decomp {α : Type} {p : α → Bool} :
    ∀ {xs : List α} {x : α}, xs.find? p = some x →
      ∃ l r, xs = l ++ x :: r ∧ (∀ y ∈ l, p y = false) ∧ p x = true
  | [], x, h => by simp [List.find?] at h
  | a :: xs, x, h => by
    by_cases hp : p a = true
    · rw [List.find?_cons_of_pos xs hp] at h
      cases h
      exact ⟨[], xs, rfl, fun y hy => absurd hy (List.not_mem_nil y), hp⟩
    · rw [List.find?_cons_of_neg xs hp] at h
      obtain ⟨l, r, hxs, hl, hx⟩ := find?_decomp h
      refine ⟨a :: l, r, by rw [hxs]; rfl, ?_, hx⟩
      intro y hy
      rcases List.mem_cons.mp hy with hy | hy
      · subst hy; exact Bool.eq_false_iff.mpr hp
      · exact hl y hy

theorem find?_append_cons {α : Type} {p : α → Bool} {l : List α} {x : α}
    (r : List α) (hl : ∀ y ∈ l, p y = false) (hx : p x = true) :
    (l ++ x :: r).find? p = some x := by
  induction l with
  | nil => exact List.find?_cons_of_pos r hx
  | cons a l ih =>
    have ha : ¬ p a = true := by
      rw [hl a (List.mem_cons_self a l)]; exact Bool.false_ne_true
    rw [List.cons_append, List.find?_cons_of_neg _ ha]
    exact ih fun y hy => hl y (List.mem_cons_of_mem a hy)

theorem updateFirst_append_cons {α : Type} {p : α → Bool} (f : α → α)
    {l : List α} {x : α} (r : List α) (hl : ∀ y ∈ l, p y = false)
    (hx : p x = true) :
    updateFirst p f (l ++ x :: r) = l ++ f x :: r := by
  induction l with
  | nil => simp only [List.nil_append, updateFirst, if_pos hx]
  | cons a l ih =>
    have ha : ¬ p a = true := by
      rw [hl a (List.mem_cons_self a l)]; exact Bool.false_ne_true
    simp only [List.cons_append, updateFirst, if_neg ha, List.append_eq]
    rw [ih fun y hy => hl y (List.mem_cons_of_mem a hy)]

theorem removeFirst_append_cons {α : Type} {p : α → Bool}
    {l : List α} {x : α} (r : List α) (hl : ∀ y ∈ l, p y = false)
    (hx : p x = true) :
    removeFirst p (l ++ x :: r) = l ++ r := by
  induction l with
  | nil => simp only [List.nil_append, removeFirst, if_pos hx]
  | cons a l ih =>
    have ha : ¬ p a = true := by
      rw [hl a (List.mem_cons_self a l)]; exact Bool.false_ne_true
    simp only [List.cons_append, removeFirst, if_neg ha, List.append_eq]
    rw [ih fun y hy => hl y (List.mem_cons_of_mem a hy)]

theorem find?_key_of_mem {α β : Type} [DecidableEq β] (f : α → β)
    {xs : List α} {a : α} (hn : (xs.map f).Nodup) (ha : a ∈ xs) :
    xs.find? (fun x => decide (f x = f a)) = some a := by
  induction xs with
  | nil => cases ha
  | cons x xs ih =>
    rw [List.map_cons, List.nodup_cons] at hn
    by_cases hfx : f x = f a
    · have hx : (fun x => decide (f x = f a)) x = true := by
        simp [hfx]
      rw [List.find?_cons_of_pos xs hx]
      rcases List.mem_cons.mp ha with h | h
      · rw [h]
      · exact absurd (hfx ▸ List.mem_map_of_mem f h) hn.1
    · have hx : ¬ (fun x => decide (f x = f a)) x = true := by
        simp [hfx]
      rw [List.find?_cons_of_neg xs hx]
      rcases List.mem_cons.mp ha with h | h
      · exact absurd (congrArg f h.symm) hfx
      · exact ih hn.2 h

theorem find?_uid_of_mem {db : DB} {A : UserRec}
    (hn : (db.map (fun u => u.uid)).Nodup) (hA : A ∈ db) :
    db.find? (fun u => decide (u.uid = A.uid)) = some A :=
  find?_key_of_mem (fun u => u.uid) hn hA

theorem find?_username_of_mem {db : DB} {A : UserRec}
    (hn : (db.map (fun u => u.username)).Nodup) (hA : A ∈ db) :
    db.find? (fun u => decide (u.username = A.username)) = some A :=
  find?_key_of_mem (fun u => u.username) hn hA

theorem uid_ne_of_ne {db : DB} {u v : UserRec}
    (hn : (db.map (fun u => u.uid)).Nodup) (hu : u ∈ db) (hv : v ∈ db)
    (hne : u ≠ v) : u.uid ≠ v.uid :=
  fun h => hne (List.inj_on_of_nodup_map hn hu hv h)

/-- C3: Refresh is read-only on server state: on every path the database is
returned unchanged (the handler never saves), no refresh cookie is set, and
any access token in the body is signed with the access secret — a refresh
never signs or persists a new refresh token. -/
theorem refresh_read_only (db : DB) (cookie : Option Token) (now : Nat) :
    (refreshHandler db cookie now).1 = db ∧
    (refreshHandler db cookie now).2.setCookie = none ∧
    (∀ t, (refreshHandler db cookie now).2.accessToken = some t →
      t.secret = ACCESS_TOKEN_SECRET) := by
  unfold refreshHandler
  split
  · exact ⟨rfl, rfl, fun t h => by cases h⟩
  · split
    · exact ⟨rfl, rfl, fun t h => by cases h⟩
    · split
      · exact ⟨rfl, rfl, fun t h => by cases h⟩
      · split
        · exact ⟨rfl, rfl, fun t h => by cases h⟩
        · refine ⟨rfl, rfl, fun t h => ?_⟩
          cases h
          rfl

/-- C10: a Logout request without a jwt cookie returns 204 immediately,
does not clear the cookie, and leaves every user record untouched; the
clear-cookie header is emitted only when a cookie was present. -/
theorem logout_no_cookie (db : DB) :
    logoutHandler db none = (db, { status := 204 }) ∧
    (logoutHandler db none).2.clearedCookie = false ∧
    (∀ c : Option Token,
      (logoutHandler db c).2.clearedCookie = true → c ≠ none) := by
  refine ⟨rfl, rfl, fun c h => ?_⟩
  cases c with
  | none => cases h
  | some t => exact Option.some_ne_none t

/-- Witness for `logout_no_cookie` at a concrete state. -/
theorem logout_no_cookie_witness :
    logoutHandler dbAB none = (dbAB, { status := 204 }) ∧
    (some tokA : Option Token) ≠ none :=
  ⟨(logout_no_cookie dbAB).1,
   (logout_no_cookie dbAB).2.2 (some tokA) (by decide)⟩

/-- C2: Refresh error taxonomy: no jwt cookie is 401; a cookie held by no
user's stored refreshToken is 403; a failed signature verification or a
decoded id different from the found user's id is 403; otherwise success
carries a newly signed access token embedding that user's id. -/
theorem refresh_taxonomy (db : DB) (cookie : Option Token) (now : Nat) :
    (cookie = none → (refreshHandler db cookie now).2 = { status := 401 }) ∧
    (∀ t, cookie = some t →
      db.find? (fun v => decide (v.refreshToken = some t)) = none →
      (refreshHandler db cookie now).2 = { status := 403 }) ∧
    (∀ t u, cookie = some t →
      db.find? (fun v => decide (v.refreshToken = some t)) = some u →
      (jwtVerify t REFRESH_TOKEN_SECRET = none ∨
        ∀ d, jwtVerify t REFRESH_TOKEN_SECRET = some d → d ≠ u.uid) →
      (refreshHandler db cookie now).2 = { status := 403 }) ∧
    (∀ t u d, cookie = some t →
      db.find? (fun v => decide (v.refreshToken = some t)) = some u →
      jwtVerify t REFRESH_TOKEN_SECRET = some d → d = u.uid →
      (refreshHandler db cookie now).2 =
        { status := 200,
          accessToken := some (jwtSign u.uid ACCESS_TOKEN_SECRET now) }) := by
  refine ⟨?_, ?_, ?_, ?_⟩
  · rintro rfl; rfl
  · rintro t rfl hf
    simp only [refreshHandler, hf]
  · rintro t u rfl hf hbad
    cases hv : jwtVerify t REFRESH_TOKEN_SECRET with
    | none => simp [refreshHandler, hf, hv]
    | some d =>
      have hne : u.uid ≠ d := by
        rcases hbad with hv0 | hall
        · rw [hv0] at hv; cases hv
        · exact Ne.symm (hall d hv)
      simp [refreshHandler, hf, hv, hne]
  · rintro t u d rfl hf hv rfl
    simp [refreshHandler, hf, hv, jwtSign]

/-- Witness for `refresh_taxonomy`: all four branches at concrete states
(no cookie; cookie held by nobody; stored token whose signature fails
verification; and a valid stored token). -/
theorem refresh_taxonomy_witness :
    (refreshHandler dbAB none 99).2 = { status := 401 } ∧
    (refreshHandler ([] : DB) (some tokA) 99).2 = { status := 403 } ∧
    (refreshHandler [userABad] (some badTok) 99).2 = { status := 403 } ∧
    (refreshHandler dbAB (some tokA) 99).2 =
      { status := 200,
        accessToken := some (jwtSign 1 ACCESS_TOKEN_SECRET 99) } :=
  ⟨(refresh_taxonomy dbAB none 99).1 rfl,
   (refresh_taxonomy [] (some tokA) 99).2.1 tokA rfl (by decide),
   (refresh_taxonomy [userABad] (some badTok) 99).2.2.1 badTok userABad
     rfl (by decide) (Or.inl (by decide)),
   (refresh_taxonomy dbAB (some tokA) 99).2.2.2 tokA userA 1 rfl (by decide)
     (by decide) (by decide)⟩

/-- C5: Logout is idempotent and fail-soft: every logout terminates with
204; no cookie and cookie-held-by-nobody both leave the state unchanged;
when a user holds the cookie value its stored refreshToken is set to null
and the rest of the state is untouched. -/
theorem logout_failsoft (db : DB) (cookie : Option Token) :
    ((logoutHandler db cookie).2.status = 204) ∧
    (cookie = none → (logoutHandler db cookie).1 = db) ∧
    (∀ t, cookie = some t →
      db.find? (fun v => decide (v.refreshToken = some t)) = none →
      (logoutHandler db cookie).1 = db) ∧
    (∀ t u, cookie = some t →
      db.find? (fun v => decide (v.refreshToken = some t)) = some u →
      ∃ l r, db = l ++ u :: r ∧
        (logoutHandler db cookie).1 =
          l ++ { u with refreshToken := none } :: r) := by
  refine ⟨?_, ?_, ?_, ?_⟩
  · cases cookie <;> rfl
  · rintro rfl; rfl
  · rintro t rfl hf
    simp only [logoutHandler]
    exact updateFirst_of_find?_none _ hf
  · rintro t u rfl hf
    obtain ⟨l, r, hdb, hl, hx⟩ := find?_decomp hf
    refine ⟨l, r, hdb, ?_⟩
    simp only [logoutHandler]
    rw [hdb]
    exact updateFirst_append_cons _ r hl hx

/-- Witness for `logout_failsoft` at concrete states: no cookie, a cookie
nobody holds, and the cookie held by the first sample user. -/
theorem logout_failsoft_witness :
    (logoutHandler dbAB none).1 = dbAB ∧
    (logoutHandler dbAB (some (jwtSign 7 REFRESH_TOKEN_SECRET 3))).1 = dbAB ∧
    (∃ l r, dbAB = l ++ userA :: r ∧
      (logoutHandler dbAB (some tokA)).1 =
        l ++ { userA with refreshToken := none } :: r) :=
  ⟨(logout_failsoft dbAB none).2.1 rfl,
   (logout_failsoft dbAB (some (jwtSign 7 REFRESH_TOKEN_SECRET 3))).2.2.1
     (jwtSign 7 REFRESH_TOKEN_SECRET 3) rfl (by decide),
   (logout_failsoft dbAB (some tokA)).2.2.2 tokA userA rfl (by decide)⟩

/-- C1: Owner scoping of transactions: a transaction of user A is never in
the list returned to user B, and update or delete authenticated as B with
A's transaction id resolve to 404 with the state unchanged — lookup happens
only inside the authenticated caller's own collection, and the handlers
take the user id exclusively from the guard-attached identity, never from
the request body or path. -/
theorem owner_scoping (db : DB) (A B : UserRec) (tx : Transaction)
    (b : TxBody) (hnd : (db.map (fun u => u.uid)).Nodup)
    (hA : A ∈ db) (hB : B ∈ db) (hAB : A.uid ≠ B.uid)
    (htx : tx ∈ A.transactions) (hdisj : crossUserTidsDisjoint db) :
    (∀ l, (listTxns db B.uid).txns = some l → tx ∉ l) ∧
    updateTxn db B.uid tx.tid b = (db, { status := 404 }) ∧
    deleteTxn db B.uid tx.tid = (db, { status := 404 }) := by
  have hfB : db.find? (fun u => decide (u.uid = B.uid)) = some B :=
    find?_uid_of_mem hnd hB
  have hnot :
      B.transactions.find? (fun t => decide (t.tid = tx.tid)) = none := by
    rw [List.find?_eq_none]
    intro y hy hdec
    exact hdisj A hA B hB hAB tx htx y hy (of_decide_eq_true hdec).symm
  refine ⟨?_, ?_, ?_⟩
  · intro l hl htxl
    simp only [listTxns, hfB] at hl
    cases hl
    exact hdisj A hA B hB hAB tx htx tx htxl rfl
  · simp [updateTxn, hfB, hnot]
  · simp [deleteTxn, hfB, hnot]

/-- Witness for `owner_scoping` at the two-user sample state: Alice's
transaction 101 is invisible to Bob and 404 for his update and delete. -/
theorem owner_scoping_witness :
    txA1 ∉ userB.transactions ∧
    updateTxn dbAB 2 101 sampleBody = (dbAB, { status := 404 }) ∧
    deleteTxn dbAB 2 101 = (dbAB, { status := 404 }) :=
  ⟨(owner_scoping dbAB userA userB txA1 sampleBody (by decide) (by decide)
      (by decide) (by decide) (by decide) (by decide)).1
      userB.transactions rfl,
   (owner_scoping dbAB userA userB txA1 sampleBody (by decide) (by decide)
      (by decide) (by decide) (by decide) (by decide)).2.1,
   (owner_scoping dbAB userA userB txA1 sampleBody (by decide) (by decide)
      (by decide) (by decide) (by decide) (by decide)).2.2⟩

/-- C8: Register conflict and atomicity: an existing username yields 409
with the whole state (hence the existing user's record) unchanged; a free
username with both fields present appends a user with an empty transaction
collection and a persisted refresh token, and returns 201 with an access
token in the body. -/
theorem register_spec (db : DB) (uname pw : String) (newId now : Nat)
    (hu : uname ≠ "") (hp : pw ≠ "") :
    (∀ u, db.find? (fun v => decide (v.username = uname)) = some u →
      registerHandler db (some uname) (some pw) newId now =
        (db, { status := 409 })) ∧
    (db.find? (fun v => decide (v.username = uname)) = none →
      registerHandler db (some uname) (some pw) newId now =
        (db ++ [{ uid := newId, username := uname, password := hashPwd pw,
                  refreshToken := some (jwtSign newId REFRESH_TOKEN_SECRET now),
                  transactions := [] }],
         { status := 201,
           accessToken := some (jwtSign newId ACCESS_TOKEN_SECRET now),
           setCookie := some (jwtSign newId REFRESH_TOKEN_SECRET now) })) := by
  constructor
  · intro u hf
    simp [registerHandler, truthyS, hu, hp, hf]
  · intro hf
    simp [registerHandler, truthyS, hu, hp, hf]

/-- Witness for `register_spec`: registering the taken username of the
sample state conflicts and changes nothing; a fresh username is created. -/
theorem register_spec_witness :
    registerHandler dbAB (some "alice") (some "x") 5 50 =
      (dbAB, { status := 409 }) ∧
    registerHandler dbAB (some "carol") (some "pc") 5 50 =
      (dbAB ++ [{ uid := 5, username := "carol", password := hashPwd "pc",
                  refreshToken := some (jwtSign 5 REFRESH_TOKEN_SECRET 50),
                  transactions := [] }],
       { status := 201,
         accessToken := some (jwtSign 5 ACCESS_TOKEN_SECRET 50),
         setCookie := some (jwtSign 5 REFRESH_TOKEN_SECRET 50) }) :=
  ⟨(register_spec dbAB "alice" "x" 5 50 (by decide) (by decide)).1 userA
     (by decide),
   (register_spec dbAB "carol" "pc" 5 50 (by decide) (by decide)).2
     (by decide)⟩

/-- C7: Update semantics of the server.js route: 404 when the user record
or the transaction id within that user's collection does not exist (state
unchanged); on success the found subdocument is replaced in place by the
body values — overwriting even with absent or empty values — except that a
falsy body date preserves the stored date. -/
theorem update_semantics (db : DB) (uid tid : Nat) (b : TxBody) :
    (db.find? (fun v => decide (v.uid = uid)) = none →
      updateTxn db uid tid b = (db, { status := 404 })) ∧
    (∀ u, db.find? (fun v => decide (v.uid = uid)) = some u →
      u.transactions.find? (fun t => decide (t.tid = tid)) = none →
      updateTxn db uid tid b = (db, { status := 404 })) ∧
    (∀ u tx, db.find? (fun v => decide (v.uid = uid)) = some u →
      u.transactions.find? (fun t => decide (t.tid = tid)) = some tx →
      ∃ l r tl tr, db = l ++ u :: r ∧ u.transactions = tl ++ tx :: tr ∧
        updateTxn db uid tid b =
          (l ++ ({ u with transactions := tl ++ replacedTx tx b :: tr }) :: r,
           { status := 200 })) := by
  refine ⟨?_, ?_, ?_⟩
  · intro hf
    simp [updateTxn, hf]
  · intro u hf hn
    simp [updateTxn, hf, hn]
  · intro u tx hf htx
    obtain ⟨l, r, hdb, hl, hpu⟩ := find?_decomp hf
    obtain ⟨tl, tr, hts, htl, hptx⟩ := find?_decomp htx
    refine ⟨l, r, tl, tr, hdb, hts, ?_⟩
    simp only [updateTxn, hf, htx]
    rw [hdb, updateFirst_append_cons _ r hl hpu, hts,
      updateFirst_append_cons _ tr htl hptx]
    rfl

/-- Witness for `update_semantics`: the success branch at the sample state,
with a body whose date is absent, preserving the stored date. -/
theorem update_semantics_witness :
    ∃ l r tl tr, dbAB = l ++ userA :: r ∧
      userA.transactions = tl ++ txA1 :: tr ∧
      updateTxn dbAB 1 101 sampleBody =
        (l ++ ({ userA with
            transactions := tl ++ replacedTx txA1 sampleBody :: tr }) :: r,
         { status := 200 }) :=
  (update_semantics dbAB 1 101 sampleBody).2.2 userA txA1 (by decide)
    (by decide)

theorem removeFirst_append_last {α : Type} {p : α → Bool} {l : List α}
    {x : α} (hl : ∀ y ∈ l, p y = false) (hx : p x = true) :
    removeFirst p (l ++ [x]) = l := by
  rw [removeFirst_append_cons [] hl hx, List.append_nil]

/-- C9: Create/listAll/delete round-trip: a created transaction appears
verbatim (all five fields as supplied) appended to the owner's collection
in listAll; deleting it by its id restores the original state exactly, so
a subsequent listAll excludes it and every other transaction is
unchanged. -/
theorem create_list_delete_roundtrip (db : DB) (A : UserRec) (b : TxBody)
    (newTid : Nat) (hnd : (db.map (fun u => u.uid)).Nodup) (hA : A ∈ db)
    (hfresh : ∀ t ∈ A.transactions, t.tid ≠ newTid) :
    ∃ db1,
      createTxn db A.uid b newTid = (db1, { status := 201 }) ∧
      (listTxns db1 A.uid).status = 200 ∧
      (listTxns db1 A.uid).txns =
        some (A.transactions ++ [newTxOf b newTid]) ∧
      deleteTxn db1 A.uid newTid = (db, { status := 200 }) ∧
      (listTxns db A.uid).txns = some A.transactions := by
  have hfA : db.find? (fun u => decide (u.uid = A.uid)) = some A :=
    find?_uid_of_mem hnd hA
  obtain ⟨l, r, hdb, hl, hpA⟩ := find?_decomp hfA
  have hpA1 : decide ((withNewTx A b newTid).uid = A.uid) = true := hpA
  have hfind1 :
      (l ++ withNewTx A b newTid :: r).find?
        (fun u => decide (u.uid = A.uid)) = some (withNewTx A b newTid) :=
    find?_append_cons r hl hpA1
  have htlf : ∀ y ∈ A.transactions, decide (y.tid = newTid) = false :=
    fun y hy => decide_eq_false (hfresh y hy)
  have hpt : decide ((newTxOf b newTid).tid = newTid) = true := by
    simp [newTxOf]
  have hfindt :
      (withNewTx A b newTid).transactions.find?
        (fun t => decide (t.tid = newTid)) = some (newTxOf b newTid) :=
    find?_append_cons [] htlf hpt
  refine ⟨l ++ withNewTx A b newTid :: r, ?_, ?_, ?_, ?_, ?_⟩
  · simp only [createTxn, hfA]
    rw [hdb, updateFirst_append_cons _ r hl hpA]
    rfl
  · simp only [listTxns, hfind1]
  · simp only [listTxns, hfind1]
    rfl
  · simp only [deleteTxn, hfind1, hfindt]
    rw [updateFirst_append_cons _ r hl hpA1]
    simp only [withNewTx]
    rw [removeFirst_append_last htlf hpt, hdb]
  · simp only [listTxns, hfA]

/-- Witness for `create_list_delete_roundtrip` at the sample state. -/
theorem create_list_delete_roundtrip_witness :
    ∃ db1,
      createTxn dbAB 1 sampleBody 999 = (db1, { status := 201 }) ∧
      (listTxns db1 1).status = 200 ∧
      (listTxns db1 1).txns =
        some (userA.transactions ++ [newTxOf sampleBody 999]) ∧
      deleteTxn db1 1 999 = (dbAB, { status := 200 }) ∧
      (listTxns dbAB 1).txns = some userA.transactions :=
  create_list_delete_roundtrip dbAB userA sampleBody 999 (by decide)
    (by decide) (by decide)

theorem find?_of_unique {α : Type} {p : α → Bool} {xs : List α} {a : α}
    (ha : a ∈ xs) (hpa : p a = true)
    (huniq : ∀ y ∈ xs, p y = true → y = a) : xs.find? p = some a := by
  induction xs with
  | nil => cases ha
  | cons x xs ih =>
    by_cases hx : p x = true
    · rw [List.find?_cons_of_pos xs hx, huniq x (List.mem_cons_self x xs) hx]
    · rw [List.find?_cons_of_neg xs hx]
      rcases List.mem_cons.mp ha with h | h
      · subst h; exact absurd hpa hx
      · exact ih h fun y hy hpy => huniq y (List.mem_cons_of_mem x hy) hpy

theorem not_mem_sides_of_nodup_map {α β : Type} (f : α → β) {l r : List α}
    {a : α} (hn : ((l ++ a :: r).map f).Nodup) : a ∉ l ∧ a ∉ r := by
  rw [List.map_append, List.map_cons, List.nodup_append] at hn
  obtain ⟨h1, h2, hdisj⟩ := hn
  rw [List.nodup_cons] at h2
  constructor
  · intro hmem
    exact hdisj (List.mem_map_of_mem f hmem) (List.mem_cons_self _ _)
  · intro hmem
    exact h2.1 (List.mem_map_of_mem f hmem)

/-- When no user holding the presented cookie value has the uid embedded in
the cookie, refresh answers 403: either the lookup by value fails, or the
id-match check after signature verification fails. -/
theorem refresh_403_of_nobody_matches (db : DB) (t : Token) (now : Nat)
    (h : ∀ u ∈ db, u.refreshToken = some t → u.uid ≠ t.id) :
    (refreshHandler db (some t) now).2.status = 403 := by
  cases hf : db.find? (fun v => decide (v.refreshToken = some t)) with
  | none => simp [refreshHandler, hf]
  | some u =>
    have hmem : u ∈ db := List.mem_of_find?_eq_some hf
    have hpu := List.find?_some hf
    have hrt : u.refreshToken = some t := of_decide_eq_true hpu
    have hne : u.uid ≠ t.id := h u hmem hrt
    cases hv : jwtVerify t REFRESH_TOKEN_SECRET with
    | none => simp [refreshHandler, hf, hv]
    | some d =>
      have hd : d = t.id := by
        unfold jwtVerify at hv
        by_cases hs : t.secret = REFRESH_TOKEN_SECRET
        · rw [if_pos hs] at hv
          injection hv with h2
          exact h2.symm
        · rw [if_neg hs] at hv
          cases hv
      subst hd
      simp [refreshHandler, hf, hv, hne]

/-- C4: Only the latest refresh token is honored.  First conjunct: a cookie
embedding user A's id that no longer equals A's stored refreshToken (the
situation after a later Login or Register overwrote it) is answered 403.
Second conjunct: after a Logout presenting A's current cookie, a refresh
presenting any cookie embedding A's id is answered 403.  Third conjunct:
after a successful Login as A at time `now`, a refresh presenting a cookie
embedding A's id other than the freshly stored one is answered 403. -/
theorem only_latest_refresh (db : DB) (A : UserRec) (t : Token) (now : Nat)
    (hnd : (db.map (fun u => u.uid)).Nodup)
    (hnu : (db.map (fun u => u.username)).Nodup)
    (hA : A ∈ db) (hid : t.id = A.uid) :
    (A.refreshToken ≠ some t →
      (refreshHandler db (some t) now).2.status = 403) ∧
    (∀ c, A.refreshToken = some c →
      (∀ u ∈ db, u ≠ A → u.refreshToken ≠ some c) →
      (refreshHandler (logoutHandler db (some c)).1 (some t) now).2.status
        = 403) ∧
    (∀ pw,
      (loginHandler db (some A.username) (some pw) now).2.status = 200 →
      t ≠ jwtSign A.uid REFRESH_TOKEN_SECRET now →
      (refreshHandler (loginHandler db (some A.username) (some pw) now).1
        (some t) now).2.status = 403) := by
  refine ⟨?_, ?_, ?_⟩
  · intro hstale
    apply refresh_403_of_nobody_matches
    intro u hu hrt
    by_cases heq : u = A
    · subst heq; exact absurd hrt hstale
    · intro he
      exact uid_ne_of_ne hnd hu hA heq (he.trans hid)
  · intro c hc huniqc
    have hfc : db.find? (fun v => decide (v.refreshToken = some c)) = some A := by
      apply find?_of_unique hA (decide_eq_true hc)
      intro y hy hpy
      by_contra hne
      exact huniqc y hy hne (of_decide_eq_true hpy)
    obtain ⟨l, r, hdb, hl, hpc⟩ := find?_decomp hfc
    have hsides := not_mem_sides_of_nodup_map (fun u : UserRec => u.uid)
      (hdb ▸ hnd)
    have hlog : (logoutHandler db (some c)).1 =
        l ++ ({ A with refreshToken := none }) :: r := by
      simp only [logoutHandler]
      rw [hdb]
      exact updateFirst_append_cons _ r hl hpc
    rw [hlog]
    apply refresh_403_of_nobody_matches
    intro u hu hrt
    rcases List.mem_append.mp hu with hul | hur
    · have hne : u ≠ A := fun he => hsides.1 (he ▸ hul)
      have humem : u ∈ db := hdb ▸ List.mem_append_left _ hul
      intro he
      exact uid_ne_of_ne hnd humem hA hne (he.trans hid)
    · rcases List.mem_cons.mp hur with he | hur'
      · rw [he] at hrt
        cases hrt
      · have hne : u ≠ A := fun he => hsides.2 (he ▸ hur')
        have humem : u ∈ db := hdb ▸
          List.mem_append_right _ (List.mem_cons_of_mem _ hur')
        intro he
        exact uid_ne_of_ne hnd humem hA hne (he.trans hid)
  · intro pw h200 htne
    have hfA' : db.find? (fun v => decide (v.username = A.username)) = some A :=
      find?_username_of_mem hnu hA
    cases hcond : (!truthyS (some A.username) || !truthyS (some pw)) with
    | true =>
      simp [loginHandler, hcond] at h200
    | false =>
      by_cases hpw : hashPwd pw = A.password
      case neg =>
        simp [loginHandler, hcond, hfA', hpw] at h200
      case pos =>
        have hdb3 : (loginHandler db (some A.username) (some pw) now).1 =
            updateFirst (fun v => decide (v.username = A.username))
              (fun v =>
                { v with refreshToken := some (jwtSign A.uid REFRESH_TOKEN_SECRET now) })
              db := by
          simp [loginHandler, hcond, hfA', hpw]
        obtain ⟨l, r, hdb, hl, hpu⟩ := find?_decomp hfA'
        have hsides := not_mem_sides_of_nodup_map
          (fun u : UserRec => u.username) (hdb ▸ hnu)
        rw [hdb3, hdb, updateFirst_append_cons _ r hl hpu]
        apply refresh_403_of_nobody_matches
        intro u hu hrt
        rcases List.mem_append.mp hu with hul | hur
        · have hne : u ≠ A := fun he => hsides.1 (he ▸ hul)
          have humem : u ∈ db := hdb ▸ List.mem_append_left _ hul
          intro he
          exact uid_ne_of_ne hnd humem hA hne (he.trans hid)
        · rcases List.mem_cons.mp hur with he | hur'
          · rw [he] at hrt
            exact absurd (Option.some_inj.mp hrt).symm htne
          · have hne : u ≠ A := fun he => hsides.2 (he ▸ hur')
            have humem : u ∈ db := hdb ▸
              List.mem_append_right _ (List.mem_cons_of_mem _ hur')
            intro he
            exact uid_ne_of_ne hnd humem hA hne (he.trans hid)

/-- Witness for `only_latest_refresh`: a stale cookie signed earlier than
the stored one is rejected; the cookie is rejected after logout; and the
pre-login cookie is rejected after a fresh login rotates the token. -/
theorem only_latest_refresh_witness :
    (refreshHandler dbAB (some (jwtSign 1 REFRESH_TOKEN_SECRET 5)) 99).2.status
      = 403 ∧
    (refreshHandler (logoutHandler dbAB (some tokA)).1 (some tokA) 99).2.status
      = 403 ∧
    (refreshHandler (loginHandler dbAB (some "alice") (some "pa") 50).1
      (some tokA) 50).2.status = 403 :=
  ⟨(only_latest_refresh dbAB userA (jwtSign 1 REFRESH_TOKEN_SECRET 5) 99
      (by decide) (by decide) (by decide) (by decide)).1 (by decide),
   (only_latest_refresh dbAB userA tokA 99 (by decide) (by decide)
      (by decide) (by decide)).2.1 tokA rfl (by decide),
   (only_latest_refresh dbAB userA tokA 50 (by decide) (by decide)
      (by decide) (by decide)).2.2 "pa" (by decide) (by decide)⟩

/-- C6 counterexample: the update route of src/backend/server.js performs
no required-field validation: at the sample state, an update whose type,
category and amount are all missing returns 200 — not 400 — and modifies
the stored transaction. -/
theorem update_missing_fields_cx :
    (updateTxn dbAB 1 101 emptyBody).2.status = 200 ∧
    (updateTxn dbAB 1 101 emptyBody).1 ≠ dbAB := by
  constructor
  · rfl
  · decide

/-- C6 amended: in the variant update route of src/unnamed/part_000, a
request missing type, category, or amount fails with 400 and the state —
hence the transaction — is not modified; the server.js update route
performs no such validation. -/
theorem update_checked_missing_fields (db : DB) (uid tid : Nat) (b : TxBody)
    (h : b.type = none ∨ b.category = none ∨ b.amount = none) :
    updateTxnChecked db uid tid b = (db, { status := 400 }) := by
  unfold updateTxnChecked
  rcases h with h | h | h <;> simp [truthyS, h]

/-- Witness for `update_checked_missing_fields` at the sample state. -/
theorem update_checked_missing_fields_witness :
    updateTxnChecked dbAB 1 101 emptyBody = (dbAB, { status := 400 }) :=
  update_checked_missing_fields dbAB 1 101 emptyBody (Or.inl rfl)

/-- Witness for `refresh_read_only` at a concrete state with a successful
refresh. -/
theorem refresh_read_only_witness :
    (refreshHandler dbAB (some tokA) 99).1 = dbAB ∧
    (refreshHandler dbAB (some tokA) 99).2.setCookie = none ∧
    (jwtSign 1 ACCESS_TOKEN_SECRET 99).secret = ACCESS_TOKEN_SECRET :=
  ⟨(refresh_read_only dbAB (some tokA) 99).1,
   (refresh_read_only dbAB (some tokA) 99).2.1,
   (refresh_read_only dbAB (some tokA) 99).2.2
     (jwtSign 1 ACCESS_TOKEN_SECRET 99) (by decide)⟩
